import Mathlib

/-!
# Verification of the Brent oil change-point analysis dashboard

Shallow embedding of the repository's code and of the backend interfaces it
consumes. The repository's own source is the React client
`frontend/src/App.js`; the Flask backend it talks to is not part of the
source tree, so the backend endpoints are modelled from the specification
(each such definition is marked `Modelled from the spec:`). Calendar dates
are embedded as integers (day numbers): ISO `YYYY-MM-DD` dates are totally
ordered and support day arithmetic, which is all the code uses. Prices are
embedded as rationals.
-/

namespace BrentApp

/-! ## Data model -/

/-- A point of the price series: `{date, price}` (spec §3, PricePoint). -/
structure PricePoint where
  date : Int
  price : ℚ
  deriving DecidableEq, Repr

/-- Modelled from the spec: the backend Event record
`{date, name, category, description, impact_level}` (spec §3); the backend
source is not in the tree. -/
structure Event where
  date : Int
  name : String
  category : String
  description : String
  impact_level : String
  deriving DecidableEq, Repr

/-- Modelled from the spec: SeriesStore holds the immutable date-sorted price
series and the event list for the process lifetime (spec §2). -/
structure SeriesStore where
  series : List PricePoint
  events : List Event
  deriving DecidableEq, Repr

/-- The invariant of the loaded series: dates strictly increasing (spec §3). -/
def SeriesStore.sortedDates (store : SeriesStore) : Prop :=
  store.series.Pairwise (fun p q => p.date < q.date)

/-! ## Frontend state (`App.js`)

The `filters` state object of `App.js` lines 24-29: four string fields, all
initialised to the empty string. -/

structure Filters where
  startDate : String
  endDate : String
  category : String
  impactLevel : String
  deriving DecidableEq, Repr

/-- The event objects as the frontend manipulates them. `App.js` reads the
properties `date`, `category`, `impact_level`, `description` and — as the
displayed title (lines 273 and 300) — the property literally named `event`.
Dates are compared with `===` only, so they are embedded as `Int` like the
backend's. -/
structure FEvent where
  date : Int
  eventTitle : String
  category : String
  impact_level : String
  description : String
  deriving DecidableEq, Repr

/-! ## JS-level helpers -/

/-- JS `s || undefined` on a string: the empty string is falsy, so it maps to
`undefined` (`none`); any other string is kept. Used at `App.js` lines 81-82. -/
def jsOrUndefined (s : String) : Option String :=
  if s = "" then none else some s

/-- JS `a || b` on strings: returns `b` when `a` is the empty string (falsy),
otherwise `a`. Used at `App.js` lines 52-53. -/
def jsOr (a b : String) : String :=
  if a = "" then b else a

/-- Axios serialization of a `params` object: entries whose value is
`undefined` (`none`) are omitted from the query string; all present string
values, the empty string included, are sent. -/
def axiosSentParams (ps : List (String × Option String)) : List (String × String) :=
  ps.filterMap (fun p => p.2.map (fun v => (p.1, v)))

/-! ## Request construction (`App.js` `fetchData`, lines 69-109) -/

/-- The `params` object of the `/api/prices` request (`App.js` lines 73-78):
both date bounds are passed through unconditionally. -/
def pricesParams (f : Filters) : List (String × Option String) :=
  [("start_date", some f.startDate), ("end_date", some f.endDate)]

/-- The `params` object of the `/api/events` request (`App.js` lines 79-86):
`category` and `impact_level` are guarded by `|| undefined`, the date bounds
are passed through unconditionally. -/
def eventsParams (f : Filters) : List (String × Option String) :=
  [("category", jsOrUndefined f.category),
   ("impact_level", jsOrUndefined f.impactLevel),
   ("start_date", some f.startDate),
   ("end_date", some f.endDate)]

/-- The `params` object of the `/api/statistics` request (`App.js`
lines 87-92): both date bounds passed through unconditionally. -/
def statisticsParams (f : Filters) : List (String × Option String) :=
  [("start_date", some f.startDate), ("end_date", some f.endDate)]

/-! ## `fetchDateRange` (`App.js` lines 43-58) -/

/-- The `/api/date-range` response shape (spec §6). -/
structure DateRangeResp where
  start_date : String
  end_date : String
  deriving DecidableEq, Repr

/-- The filter update performed by `fetchDateRange` (`App.js` lines 50-54):
`setFilters(prev => ({...prev, startDate: prev.startDate || start_date,
endDate: prev.endDate || end_date}))`. -/
def fetchDateRangeUpdate (prev : Filters) (resp : DateRangeResp) : Filters :=
  { prev with
    startDate := jsOr prev.startDate resp.start_date
    endDate := jsOr prev.endDate resp.end_date }

/-! ## Event selection (`App.js` lines 111-124 and 285-290) -/

/-- Whether an event card is rendered with the `selected` class
(`App.js` line 288): `selectedEvent?.date === event.date`. With no selected
event, optional chaining yields `undefined`, which is `===`-unequal to any
date. -/
def isSelectedClass (selected : Option FEvent) (e : FEvent) : Bool :=
  match selected with
  | some s => s.date == e.date
  | none => false

/-- The query params `handleEventClick` sends to `/api/event-impact`
(`App.js` lines 114-119): `event_date` is the clicked event's `date`,
`window_days` is the literal 30. -/
structure ImpactRequestParams where
  event_date : Int
  window_days : Int
  deriving DecidableEq, Repr

def handleEventClickParams (e : FEvent) : ImpactRequestParams :=
  { event_date := e.date, window_days := 30 }

/-! ## Backend: QueryService price filter (modelled from the spec) -/

/-- Modelled from the spec: QueryService filters prices by inclusive date
range, results in ascending date order (spec §4.4); the backend source is not
in the tree. -/
def pricesInRange (store : SeriesStore) (s e : Int) : List PricePoint :=
  store.series.filter (fun p => decide (s ≤ p.date ∧ p.date ≤ e))

/-- The `/api/prices` response shape: `{dates, prices}` parallel arrays
(spec §6). -/
structure PricesResp where
  dates : List Int
  prices : List ℚ
  deriving DecidableEq, Repr

/-- Modelled from the spec: the `GET prices(start_date, end_date)` endpoint,
returning the in-range dates and prices as parallel arrays (spec §6). -/
def pricesEndpoint (store : SeriesStore) (s e : Int) : PricesResp :=
  { dates := (pricesInRange store s e).map (fun p => p.date)
    prices := (pricesInRange store s e).map (fun p => p.price) }

/-- The client-side zip of the prices response (`App.js` lines 96-99):
`dates.map((date, idx) => ({date, price: prices[idx]}))`. Walking the dates
with a running index and reading `prices[idx]` is walking `prices` by
successive tails: `prices[idx]` for the element at position `idx` is
`(tail^idx prices).head?`, i.e. `prices.get? idx`, `undefined` (`none`) past
the end. -/
def clientZip : List Int → List ℚ → List (Int × Option ℚ)
  | [], _ => []
  | d :: ds, ps => (d, ps.head?) :: clientZip ds ps.tail

/-! ## Backend: StatisticsEngine (modelled from the spec)

Modelled from the spec: the StatisticsEngine source is not in the tree.
`summarize(series_slice) -> {mean, median, std_dev, volatility, min, max,
count}` (spec §4.1). The order-statistics and mean fields are rational-valued
and computable; `std_dev`/`volatility` involve `ln` and `sqrt` and are
embedded separately over the reals below. -/

/-- Minimum of a price slice (junk value 0 on the empty slice, which
`summarize` rejects). -/
def sMin : List ℚ → ℚ
  | [] => 0
  | x :: xs => xs.foldl min x

/-- Maximum of a price slice (junk value 0 on the empty slice). -/
def sMax : List ℚ → ℚ
  | [] => 0
  | x :: xs => xs.foldl max x

/-- Arithmetic mean of a price slice (0 on the empty slice: division by
zero). -/
def sMean (l : List ℚ) : ℚ :=
  l.sum / l.length

/-- Median of a price slice: middle element of the sorted slice for odd
length, average of the two middle elements for even length. -/
def sMedian (l : List ℚ) : ℚ :=
  let s := List.insertionSort (· ≤ ·) l
  let n := s.length
  if n % 2 = 1 then s.getD (n / 2) 0
  else (s.getD (n / 2 - 1) 0 + s.getD (n / 2) 0) / 2

/-- The rational-valued fields of a `summarize` result. -/
structure Summary where
  mean : ℚ
  median : ℚ
  min : ℚ
  max : ℚ
  count : Nat
  deriving DecidableEq, Repr

/-- Modelled from the spec: `StatisticsEngine.summarize` on a price slice;
`none` embeds the `EmptyRangeError` raised on an empty slice (spec §4.1). -/
def summarize (l : List ℚ) : Option Summary :=
  if l = [] then none
  else some { mean := sMean l, median := sMedian l, min := sMin l,
              max := sMax l, count := l.length }

/-- Modelled from the spec: daily log returns `r_i = ln(p_i / p_{i-1})` of a
price series (spec §4.1, glossary). -/
noncomputable def logReturns (l : List ℝ) : List ℝ :=
  (l.zip l.tail).map (fun p => Real.log (p.2 / p.1))

/-- Sample standard deviation of a list of reals (junk on fewer than two
elements: division by zero yields 0). -/
noncomputable def sampleStd (l : List ℝ) : ℝ :=
  Real.sqrt ((l.map (fun r => (r - l.sum / l.length) ^ 2)).sum / (l.length - 1))

/-- Modelled from the spec: annualized volatility — the sample standard
deviation of daily log returns times `sqrt 252` (spec §4.1). -/
noncomputable def volatility (l : List ℝ) : ℝ :=
  sampleStd (logReturns l) * Real.sqrt 252

/-! ## Backend: EventImpactAnalyzer (modelled from the spec) -/

/-- The numeric fields of an impact result (spec §3, ImpactResult). -/
structure ImpactResult where
  event_date : Int
  window_days : Int
  price_before : ℚ
  price_after : ℚ
  absolute_change : ℚ
  percentage_change : ℚ
  deriving DecidableEq, Repr

/-- The `/api/event-impact` response shape:
`{impact: ImpactResult|null, prices, dates, event_date}` (spec §6). -/
structure ImpactResponse where
  impact : Option ImpactResult
  prices : List ℚ
  dates : List Int
  event_date : Int
  deriving DecidableEq, Repr

/-- Modelled from the spec: the "before" sub-window
`[event_date - window_days, event_date)` clipped to the series (spec §4.3). -/
def beforeWindow (store : SeriesStore) (ed wd : Int) : List PricePoint :=
  store.series.filter (fun p => decide (ed - wd ≤ p.date ∧ p.date < ed))

/-- Modelled from the spec: the "after" sub-window
`[event_date, event_date + window_days]` clipped to the series (spec §4.3). -/
def afterWindow (store : SeriesStore) (ed wd : Int) : List PricePoint :=
  store.series.filter (fun p => decide (ed ≤ p.date ∧ p.date ≤ ed + wd))

/-- Modelled from the spec: the sufficiency gate — at least a minimum count
(2) of points on each side after clipping (spec §4.3). -/
def sufficiencyGate (store : SeriesStore) (ed wd : Int) : Bool :=
  2 ≤ (beforeWindow store ed wd).length && 2 ≤ (afterWindow store ed wd).length

/-- Modelled from the spec: `GET event-impact(event_date, window_days)`
(spec §4.3 and §6). When the sufficiency gate fails, `impact` is `null`
(`none`), never a partially-computed or zero-filled value; otherwise
`price_before`/`price_after` are the window means,
`absolute_change = price_after - price_before` and
`percentage_change = absolute_change / price_before * 100`. The `prices` and
`dates` arrays cover the whole surrounding window, and `event_date` echoes the
queried date. -/
def eventImpactEndpoint (store : SeriesStore) (ed wd : Int) : ImpactResponse :=
  let window := store.series.filter (fun p => decide (ed - wd ≤ p.date ∧ p.date ≤ ed + wd))
  { impact :=
      if sufficiencyGate store ed wd then
        let pb := sMean ((beforeWindow store ed wd).map (fun p => p.price))
        let pa := sMean ((afterWindow store ed wd).map (fun p => p.price))
        some { event_date := ed, window_days := wd, price_before := pb,
               price_after := pa, absolute_change := pa - pb,
               percentage_change := (pa - pb) / pb * 100 }
      else none
    prices := window.map (fun p => p.price)
    dates := window.map (fun p => p.date)
    event_date := ed }

/-! ## Frontend: impact-section render (`App.js` lines 308-356) -/

/-- The two mutually exclusive renderings of the impact section: the numeric
block showing the four change figures (lines 313-334), or the distinct
"Insufficient data to calculate impact for this event." message (line 353). -/
inductive ImpactView where
  | numeric (price_before price_after absolute_change percentage_change : ℚ)
  | insufficient
  deriving DecidableEq, Repr

/-- What `App.js` renders for a received `/api/event-impact` response
(lines 311-354): `eventImpact.impact ? <numeric block> : <insufficient
message>` — JS truthiness sends `null` to the insufficient branch and any
object to the numeric branch, whose four figures are read off the `impact`
object. -/
def renderImpactSection (resp : ImpactResponse) : ImpactView :=
  match resp.impact with
  | some i => .numeric i.price_before i.price_after i.absolute_change i.percentage_change
  | none => .insufficient

/-- The `x` coordinate of the red `ReferenceLine` in the impact chart
(`App.js` lines 343-348): `eventImpact.event_date`. -/
def impactChartRefLineX (resp : ImpactResponse) : Int :=
  resp.event_date

/-! ## JSON-level view of events

`App.js` receives events as JSON objects and reads their properties by name;
property access on a missing key yields `undefined`. This level is needed to
state which key the client renders as the event title. -/

inductive JsVal where
  | str (s : String)
  | num (n : Int)
  deriving DecidableEq, Repr

/-- JS property access `obj.k`: `none` is `undefined`. -/
def jsGet (obj : List (String × JsVal)) (k : String) : Option JsVal :=
  (obj.find? (fun p => p.1 == k)).map (fun p => p.2)

/-- Modelled from the spec: the backend serializes an Event with the keys of
the spec's Event shape `{date, name, category, description, impact_level}`
(spec §3); the backend source is not in the tree. -/
def serializeEvent (e : Event) : List (String × JsVal) :=
  [("date", .num e.date), ("name", .str e.name), ("category", .str e.category),
   ("description", .str e.description), ("impact_level", .str e.impact_level)]

/-- The event-card title (`App.js` line 300): `{event.event}` — the property
named `event`. -/
def cardTitle (obj : List (String × JsVal)) : Option JsVal :=
  jsGet obj "event"

/-- The chart-marker label of an event `ReferenceLine` (`App.js` line 273):
`label={{ value: event.event, ... }}` — the same `event` property. -/
def chartMarkerLabel (obj : List (String × JsVal)) : Option JsVal :=
  jsGet obj "event"

/-! ## Backend: statistics endpoint and per-request server model
(modelled from the spec) -/

/-- The `/api/statistics` payload `{mean, median, volatility, min, max,
count}` (spec §6); `volatility` is real-valued. -/
structure StatsPayload where
  mean : ℚ
  median : ℚ
  volatility : ℝ
  min : ℚ
  max : ℚ
  count : Nat

/-- Modelled from the spec: `GET statistics(start_date, end_date)`; `none`
embeds the 4xx failure on an empty range (spec §6). -/
noncomputable def statisticsEndpoint (store : SeriesStore) (s e : Int) :
    Option StatsPayload :=
  let slice := (pricesInRange store s e).map (fun p => p.price)
  if slice = [] then none
  else some { mean := sMean slice, median := sMedian slice,
              volatility := volatility (slice.map (fun q => (q : ℝ))),
              min := sMin slice, max := sMax slice, count := slice.length }

/-- An analytical request: statistics over a range, or an event-impact query
(spec §5: each request is an independent unit of work). -/
inductive Request where
  | stats (s e : Int)
  | impact (ed wd : Int)
  deriving DecidableEq, Repr

/-- A response to an analytical request. -/
inductive Response where
  | statsR (r : Option StatsPayload)
  | impactR (r : ImpactResponse)

/-- Modelled from the spec: handling one request. The store is read-only
(spec §3 lifecycle); the handler returns the response together with the store
it leaves behind. -/
noncomputable def handle (store : SeriesStore) : Request → Response × SeriesStore
  | .stats s e => (.statsR (statisticsEndpoint store s e), store)
  | .impact ed wd => (.impactR (eventImpactEndpoint store ed wd), store)

/-- Modelled from the spec: a server run — requests handled in sequence, each
against the state the previous one left (spec §5: no cross-request state
beyond the read-only store). -/
noncomputable def runRequests (store : SeriesStore) : List Request → List Response
  | [] => []
  | r :: rs =>
    let out := handle store r
    out.1 :: runRequests out.2 rs

/-! ## Concrete instances used to exercise the theorems -/

/-- A three-point store with strictly increasing dates. -/
def storeW : SeriesStore :=
  { series := [⟨0, 50⟩, ⟨1, 55⟩, ⟨2, 45⟩], events := [] }

/-- A concrete event record of the spec's Event shape. -/
def eventW : Event :=
  { date := 0, name := "Gulf War begins", category := "Conflict",
    description := "Iraq invades Kuwait", impact_level := "High" }

/-- The summary of the one-point slice `[3]`. -/
def summaryW : Summary := { mean := 3, median := 3, min := 3, max := 3, count := 1 }

end BrentApp

namespace BrentApp

/-- The left fold of `min` lands on one of its inputs. -/
theorem foldl_min_mem (xs : List ℚ) (x : ℚ) : xs.foldl min x ∈ x :: xs := by
  induction xs generalizing x with
  | nil => simp
  | cons a as ih =>
    simp only [List.foldl_cons]
    rcases List.mem_cons.1 (ih (min x a)) with h1 | h1
    · rw [h1]
      rcases min_choice x a with hc | hc <;> rw [hc]
      · exact List.mem_cons_self _ _
      · exact List.mem_cons_of_mem _ (List.mem_cons_self _ _)
    · exact List.mem_cons_of_mem _ (List.mem_cons_of_mem _ h1)

/-- The left fold of `min` is a lower bound of its inputs. -/
theorem foldl_min_le (xs : List ℚ) : ∀ x y : ℚ, y ∈ x :: xs → xs.foldl min x ≤ y := by
  induction xs with
  | nil =>
    intro x y hy
    simp only [List.mem_singleton] at hy
    simp [hy]
  | cons a as ih =>
    intro x y hy
    simp only [List.foldl_cons]
    have hmin : as.foldl min (min x a) ≤ min x a :=
      ih (min x a) (min x a) (List.mem_cons_self _ _)
    rcases List.mem_cons.1 hy with h1 | h1
    · rw [h1]
      exact le_trans hmin (min_le_left _ _)
    · rcases List.mem_cons.1 h1 with h2 | h2
      · rw [h2]
        exact le_trans hmin (min_le_right _ _)
      · exact ih (min x a) y (List.mem_cons_of_mem _ h2)

/-- The left fold of `max` lands on one of its inputs. -/
theorem foldl_max_mem (xs : List ℚ) (x : ℚ) : xs.foldl max x ∈ x :: xs := by
  induction xs generalizing x with
  | nil => simp
  | cons a as ih =>
    simp only [List.foldl_cons]
    rcases List.mem_cons.1 (ih (max x a)) with h1 | h1
    · rw [h1]
      rcases max_choice x a with hc | hc <;> rw [hc]
      · exact List.mem_cons_self _ _
      · exact List.mem_cons_of_mem _ (List.mem_cons_self _ _)
    · exact List.mem_cons_of_mem _ (List.mem_cons_of_mem _ h1)

/-- The left fold of `max` is an upper bound of its inputs. -/
theorem le_foldl_max (xs : List ℚ) : ∀ x y : ℚ, y ∈ x :: xs → y ≤ xs.foldl max x := by
  induction xs with
  | nil =>
    intro x y hy
    simp only [List.mem_singleton] at hy
    simp [hy]
  | cons a as ih =>
    intro x y hy
    simp only [List.foldl_cons]
    have hmax : max x a ≤ as.foldl max (max x a) :=
      ih (max x a) (max x a) (List.mem_cons_self _ _)
    rcases List.mem_cons.1 hy with h1 | h1
    · rw [h1]
      exact le_trans (le_max_left _ _) hmax
    · rcases List.mem_cons.1 h1 with h2 | h2
      · rw [h2]
        exact le_trans (le_max_right _ _) hmax
      · exact ih (max x a) y (List.mem_cons_of_mem _ h2)

/-- `sMin` is a lower bound of the slice. -/
theorem sMin_le_of_mem {l : List ℚ} {y : ℚ} (hy : y ∈ l) : sMin l ≤ y := by
  cases l with
  | nil => cases hy
  | cons x xs => exact foldl_min_le xs x y hy

/-- `sMax` is an upper bound of the slice. -/
theorem le_sMax_of_mem {l : List ℚ} {y : ℚ} (hy : y ∈ l) : y ≤ sMax l := by
  cases l with
  | nil => cases hy
  | cons x xs => exact le_foldl_max xs x y hy

end BrentApp

namespace BrentApp

/-- The median of a non-empty slice lies between its minimum and maximum. -/
theorem sMedian_bounds {l : List ℚ} (h : l ≠ []) :
    sMin l ≤ sMedian l ∧ sMedian l ≤ sMax l := by
  have hperm := List.perm_insertionSort (· ≤ ·) l
  set s := List.insertionSort (· ≤ ·) l with hs
  have hpos : 0 < s.length := by
    rw [hperm.length_eq]
    exact List.length_pos.2 h
  have hmem : ∀ (i : Nat) (hi : i < s.length), s[i] ∈ l :=
    fun i hi => hperm.mem_iff.1 (List.getElem_mem hi)
  unfold sMedian
  rw [← hs]
  by_cases hodd : s.length % 2 = 1
  · simp only [hodd, if_pos]
    have hi : s.length / 2 < s.length := Nat.div_lt_self hpos one_lt_two
    rw [List.getD_eq_getElem s 0 hi]
    exact ⟨sMin_le_of_mem (hmem _ hi), le_sMax_of_mem (hmem _ hi)⟩
  · simp only [hodd, if_neg, not_false_iff]
    have hi2 : s.length / 2 < s.length := Nat.div_lt_self hpos one_lt_two
    have hi1 : s.length / 2 - 1 < s.length := lt_of_le_of_lt (Nat.sub_le _ _) hi2
    rw [List.getD_eq_getElem s 0 hi1, List.getD_eq_getElem s 0 hi2]
    have hb1 := sMin_le_of_mem (hmem _ hi1)
    have hb2 := sMin_le_of_mem (hmem _ hi2)
    have ht1 := le_sMax_of_mem (hmem _ hi1)
    have ht2 := le_sMax_of_mem (hmem _ hi2)
    constructor <;> linarith

/-- A common lower bound of a slice bounds its sum from below. -/
theorem mul_length_le_sum (l : List ℚ) (c : ℚ) (h : ∀ x ∈ l, c ≤ x) :
    c * l.length ≤ l.sum := by
  induction l with
  | nil => simp
  | cons a as ih =>
    have ha := h a (List.mem_cons_self _ _)
    have hs := ih (fun x hx => h x (List.mem_cons_of_mem _ hx))
    simp only [List.sum_cons, List.length_cons]
    push_cast
    nlinarith [hs, ha]

/-- A common upper bound of a slice bounds its sum from above. -/
theorem sum_le_mul_length (l : List ℚ) (c : ℚ) (h : ∀ x ∈ l, x ≤ c) :
    l.sum ≤ c * l.length := by
  induction l with
  | nil => simp
  | cons a as ih =>
    have ha := h a (List.mem_cons_self _ _)
    have hs := ih (fun x hx => h x (List.mem_cons_of_mem _ hx))
    simp only [List.sum_cons, List.length_cons]
    push_cast
    nlinarith [hs, ha]

/-- The mean of a non-empty slice lies between its minimum and maximum. -/
theorem sMean_bounds {l : List ℚ} (h : l ≠ []) :
    sMin l ≤ sMean l ∧ sMean l ≤ sMax l := by
  have hpos : (0:ℚ) < l.length := by
    exact_mod_cast List.length_pos.2 h
  unfold sMean
  constructor
  · rw [le_div_iff₀ hpos]
    exact mul_length_le_sum l (sMin l) (fun x hx => sMin_le_of_mem hx)
  · rw [div_le_iff₀ hpos]
    exact sum_le_mul_length l (sMax l) (fun x hx => le_sMax_of_mem hx)

end BrentApp

namespace BrentApp

/-- Log returns are invariant under scaling all prices by a non-zero constant: the quotients `p_i / p_{i-1}` themselves do not change. -/
theorem logReturns_scale (l : List ℝ) (k : ℝ) (hk : k ≠ 0) :
    logReturns (l.map (fun x => k * x)) = logReturns l := by
  unfold logReturns
  rw [← List.map_tail, List.zip_map, List.map_map]
  congr 1
  funext p
  simp only [Function.comp, Prod.map]
  rw [mul_div_mul_left _ _ hk]

/-- The client-side zip of two parallel projections of one list recovers the list of projection pairs: nothing is dropped, duplicated or misaligned. -/
theorem clientZip_map {α : Type} (l : List α) (f : α → Int) (g : α → ℚ) :
    clientZip (l.map f) (l.map g) = l.map (fun x => (f x, some (g x))) := by
  induction l with
  | nil => rfl
  | cons a as ih => simp [clientZip, ih]

/-- A request handler returns the store it was given: the store is read-only. -/
theorem handle_keeps_store (store : SeriesStore) (r : Request) :
    (handle store r).2 = store := by
  cases r <;> rfl

/-- Because handlers keep the store intact, a server run is a pure map of the handler over the request list. -/
theorem runRequests_eq_map (store : SeriesStore) (rs : List Request) :
    runRequests store rs = rs.map (fun r => (handle store r).1) := by
  induction rs with
  | nil => rfl
  | cons r rs ih =>
    simp only [runRequests, List.map_cons]
    rw [handle_keeps_store]
    exact congrArg _ ih

end BrentApp

namespace BrentApp

/-- C1: when the sufficiency gate fails, the `GET event-impact` response has
`impact = null` and `App.js` renders the distinct insufficient-data state —
never a partially-computed or zero-filled numeric block; when `impact` is
non-null, the numeric block shows its `price_before`, `price_after`,
`absolute_change` and `percentage_change` fields. -/
theorem impact_null_is_insufficient_view (store : SeriesStore) (ed wd : Int) :
    (sufficiencyGate store ed wd = false →
      (eventImpactEndpoint store ed wd).impact = none ∧
      renderImpactSection (eventImpactEndpoint store ed wd) = .insufficient) ∧
    (∀ i, (eventImpactEndpoint store ed wd).impact = some i →
      renderImpactSection (eventImpactEndpoint store ed wd) =
        .numeric i.price_before i.price_after i.absolute_change i.percentage_change) := by
  constructor
  · intro hgate
    have h1 : (eventImpactEndpoint store ed wd).impact = none := by
      simp [eventImpactEndpoint, hgate]
    exact ⟨h1, by simp [renderImpactSection, h1]⟩
  · intro i hi
    simp [renderImpactSection, hi]

/-- Witness for C1: the empty store fails the gate at any date, the response's `impact` is `null`, and the render is the insufficient-data state. -/
theorem impact_null_witness :
    sufficiencyGate ⟨[], []⟩ 0 30 = false ∧
    (eventImpactEndpoint ⟨[], []⟩ 0 30).impact = none ∧
    renderImpactSection (eventImpactEndpoint ⟨[], []⟩ 0 30) = .insufficient :=
  ⟨by decide, (impact_null_is_insufficient_view ⟨[], []⟩ 0 30).1 (by decide)⟩

/-- C2: for every `GET prices` response over a date-sorted store, `dates` and
`prices` are parallel arrays of equal length in strictly ascending date
order, and the client's index zip (`dates.map((date, idx) => ...)`)
reconstructs exactly the in-range series, pairing each price with its
correct date and dropping or duplicating no point. -/
theorem prices_parallel_sorted_zip (store : SeriesStore) (s e : Int)
    (hsort : store.sortedDates) :
    (pricesEndpoint store s e).dates.length = (pricesEndpoint store s e).prices.length ∧
    (pricesEndpoint store s e).dates.Pairwise (· < ·) ∧
    clientZip (pricesEndpoint store s e).dates (pricesEndpoint store s e).prices =
      (pricesInRange store s e).map (fun p => (p.date, some p.price)) := by
  refine ⟨by simp [pricesEndpoint], ?_, clientZip_map _ _ _⟩
  exact List.pairwise_map.mpr (hsort.filter _)

/-- Witness for C2: the parallel-array and zip properties at a concrete sorted three-point store. -/
theorem prices_parallel_witness :
    storeW.sortedDates ∧
    ((pricesEndpoint storeW 0 2).dates.length = (pricesEndpoint storeW 0 2).prices.length ∧
     (pricesEndpoint storeW 0 2).dates.Pairwise (· < ·) ∧
     clientZip (pricesEndpoint storeW 0 2).dates (pricesEndpoint storeW 0 2).prices =
       (pricesInRange storeW 0 2).map (fun p => (p.date, some p.price))) :=
  ⟨by unfold SeriesStore.sortedDates storeW; decide,
   prices_parallel_sorted_zip storeW 0 2 (by unfold SeriesStore.sortedDates storeW; decide)⟩

end BrentApp

namespace BrentApp

/-- Counterexample to C3: on a concrete spec-shaped event, the title the
client displays (property `event`, read at `App.js` lines 273 and 300) is
`undefined`, while the `name` field is present — so the displayed title is
not the `name` field. -/
theorem title_reads_missing_key :
    cardTitle (serializeEvent eventW) = none ∧
    chartMarkerLabel (serializeEvent eventW) = none ∧
    jsGet (serializeEvent eventW) "name" = some (.str "Gulf War begins") ∧
    cardTitle (serializeEvent eventW) ≠ jsGet (serializeEvent eventW) "name" := by
  decide

/-- C3 (amended): every Event in the events response carries a `name` string
field alongside `date`, `category`, `description` and `impact_level`, but the
title `App.js` displays for an event card and a chart marker is the `event`
property, which the spec's Event shape does not contain — on spec-shaped
events the displayed title is `undefined`, not the `name` field. -/
theorem event_name_present_title_undefined (e : Event) :
    jsGet (serializeEvent e) "name" = some (.str e.name) ∧
    cardTitle (serializeEvent e) = none ∧
    chartMarkerLabel (serializeEvent e) = none := by
  refine ⟨rfl, rfl, rfl⟩

/-- Counterexample to C4: with every filter empty, the empty `start_date` and
`end_date` criteria ARE sent as (empty-string) filter values in the prices,
statistics and events requests — the code guards only `category` and
`impact_level` with `|| undefined`. -/
theorem empty_date_bound_is_sent :
    ("start_date", "") ∈ axiosSentParams (pricesParams ⟨"", "", "", ""⟩) ∧
    ("end_date", "") ∈ axiosSentParams (pricesParams ⟨"", "", "", ""⟩) ∧
    ("start_date", "") ∈ axiosSentParams (statisticsParams ⟨"", "", "", ""⟩) ∧
    ("start_date", "") ∈ axiosSentParams (eventsParams ⟨"", "", "", ""⟩) := by
  decide

/-- C4 (amended): an empty `category` or `impactLevel` criterion is not sent
at all in the events query (absence of the filter), and a non-empty one is
sent with its exact value; the `start_date` and `end_date` criteria are sent
unconditionally — with their value, empty or not — in the prices, statistics
and events queries. -/
theorem empty_criteria_handling (f : Filters) :
    (f.category = "" → ∀ v, ("category", v) ∉ axiosSentParams (eventsParams f)) ∧
    (f.category ≠ "" → ("category", f.category) ∈ axiosSentParams (eventsParams f)) ∧
    (f.impactLevel = "" → ∀ v, ("impact_level", v) ∉ axiosSentParams (eventsParams f)) ∧
    (f.impactLevel ≠ "" → ("impact_level", f.impactLevel) ∈ axiosSentParams (eventsParams f)) ∧
    ("start_date", f.startDate) ∈ axiosSentParams (pricesParams f) ∧
    ("end_date", f.endDate) ∈ axiosSentParams (pricesParams f) ∧
    ("start_date", f.startDate) ∈ axiosSentParams (statisticsParams f) ∧
    ("end_date", f.endDate) ∈ axiosSentParams (statisticsParams f) ∧
    ("start_date", f.startDate) ∈ axiosSentParams (eventsParams f) ∧
    ("end_date", f.endDate) ∈ axiosSentParams (eventsParams f) := by
  by_cases hc : f.category = "" <;> by_cases hi : f.impactLevel = "" <;>
    simp [axiosSentParams, eventsParams, pricesParams, statisticsParams,
          jsOrUndefined, hc, hi]

end BrentApp

namespace BrentApp

/-- Witness for C4 (amended): concrete filter states with an empty category and a non-empty impact level, and the converse. -/
theorem empty_criteria_witness :
    (∀ v, ("category", v) ∉ axiosSentParams (eventsParams ⟨"2020-01-01", "2020-12-31", "", "OPEC"⟩)) ∧
    ("impact_level", "OPEC") ∈ axiosSentParams (eventsParams ⟨"2020-01-01", "2020-12-31", "", "OPEC"⟩) ∧
    ("category", "Conflict") ∈ axiosSentParams (eventsParams ⟨"", "", "Conflict", ""⟩) ∧
    (∀ v, ("impact_level", v) ∉ axiosSentParams (eventsParams ⟨"", "", "Conflict", ""⟩)) ∧
    ("start_date", "2020-01-01") ∈ axiosSentParams (pricesParams ⟨"2020-01-01", "2020-12-31", "", "OPEC"⟩) :=
  ⟨(empty_criteria_handling _).1 rfl,
   (empty_criteria_handling ⟨"2020-01-01", "2020-12-31", "", "OPEC"⟩).2.2.2.1 (by decide),
   (empty_criteria_handling ⟨"", "", "Conflict", ""⟩).2.1 (by decide),
   (empty_criteria_handling ⟨"", "", "Conflict", ""⟩).2.2.1 rfl,
   (empty_criteria_handling _).2.2.2.2.1⟩

/-- C5: every `GET event-impact` request built by `handleEventClick` carries
`window_days = 30` and `event_date` equal to the clicked event's `date`; the
response's `event_date` echoes the queried date and is the `x` position of
the impact chart's reference line. -/
theorem impact_request_fixed_window (e : FEvent) (store : SeriesStore) :
    (handleEventClickParams e).window_days = 30 ∧
    (handleEventClickParams e).event_date = e.date ∧
    (eventImpactEndpoint store (handleEventClickParams e).event_date
        (handleEventClickParams e).window_days).event_date = e.date ∧
    impactChartRefLineX (eventImpactEndpoint store (handleEventClickParams e).event_date
        (handleEventClickParams e).window_days) = e.date :=
  ⟨rfl, rfl, rfl, rfl⟩

/-- C9: event-card selection is keyed on the `date` field alone — a card is
marked selected exactly when its date equals the selected event's date, no
card is selected before any click, and for two events sharing one date,
clicking either marks both cards selected. -/
theorem selection_keyed_on_date (s e1 e2 : FEvent) :
    (isSelectedClass (some s) e1 = true ↔ s.date = e1.date) ∧
    isSelectedClass none e1 = false ∧
    (e1.date = e2.date →
      isSelectedClass (some e1) e1 = true ∧ isSelectedClass (some e1) e2 = true ∧
      isSelectedClass (some e2) e1 = true ∧ isSelectedClass (some e2) e2 = true) := by
  refine ⟨?_, rfl, ?_⟩
  · simp [isSelectedClass]
  · intro h
    simp [isSelectedClass, h]

/-- Witness for C9: two distinct concrete events on one date; clicking either marks both cards selected. -/
theorem selection_witness :
    ((⟨0, "Invasion", "Conflict", "High", "d1"⟩ : FEvent).date =
      (⟨0, "Sanctions", "Sanction", "Low", "d2"⟩ : FEvent).date) ∧
    (isSelectedClass (some ⟨0, "Invasion", "Conflict", "High", "d1"⟩)
        ⟨0, "Invasion", "Conflict", "High", "d1"⟩ = true ∧
      isSelectedClass (some ⟨0, "Invasion", "Conflict", "High", "d1"⟩)
        ⟨0, "Sanctions", "Sanction", "Low", "d2"⟩ = true ∧
      isSelectedClass (some ⟨0, "Sanctions", "Sanction", "Low", "d2"⟩)
        ⟨0, "Invasion", "Conflict", "High", "d1"⟩ = true ∧
      isSelectedClass (some ⟨0, "Sanctions", "Sanction", "Low", "d2"⟩)
        ⟨0, "Sanctions", "Sanction", "Low", "d2"⟩ = true) :=
  ⟨rfl, (selection_keyed_on_date ⟨0, "Invasion", "Conflict", "High", "d1"⟩
    ⟨0, "Invasion", "Conflict", "High", "d1"⟩ ⟨0, "Sanctions", "Sanction", "Low", "d2"⟩).2.2 rfl⟩

/-- C10: the date-range response handler leaves a non-empty `startDate`
(resp. `endDate`) filter unchanged, fills an empty one with the series
bound, and never touches `category` or `impactLevel`. -/
theorem date_range_fills_only_empty (prev : Filters) (resp : DateRangeResp) :
    ((fetchDateRangeUpdate prev resp).category = prev.category ∧
     (fetchDateRangeUpdate prev resp).impactLevel = prev.impactLevel) ∧
    (prev.startDate ≠ "" → (fetchDateRangeUpdate prev resp).startDate = prev.startDate) ∧
    (prev.startDate = "" → (fetchDateRangeUpdate prev resp).startDate = resp.start_date) ∧
    (prev.endDate ≠ "" → (fetchDateRangeUpdate prev resp).endDate = prev.endDate) ∧
    (prev.endDate = "" → (fetchDateRangeUpdate prev resp).endDate = resp.end_date) := by
  refine ⟨⟨rfl, rfl⟩, ?_, ?_, ?_, ?_⟩ <;> intro h <;> simp [fetchDateRangeUpdate, jsOr, h]

/-- Witness for C10: a concrete prior filter state with a kept start date, a filled end date and an untouched category. -/
theorem date_range_fills_witness :
    (("2020-01-01" : String) ≠ "") ∧
    (fetchDateRangeUpdate ⟨"2020-01-01", "", "OPEC", "High"⟩ ⟨"1987-05-20", "2022-09-30"⟩).startDate
      = "2020-01-01" ∧
    (fetchDateRangeUpdate ⟨"2020-01-01", "", "OPEC", "High"⟩ ⟨"1987-05-20", "2022-09-30"⟩).endDate
      = "2022-09-30" ∧
    (fetchDateRangeUpdate ⟨"2020-01-01", "", "OPEC", "High"⟩ ⟨"1987-05-20", "2022-09-30"⟩).category
      = "OPEC" :=
  ⟨by decide,
   (date_range_fills_only_empty _ _).2.1 (by decide),
   (date_range_fills_only_empty _ _).2.2.2.2 rfl,
   (date_range_fills_only_empty _ _).1.1⟩

end BrentApp

namespace BrentApp

/-- C6: `summarize` on the concrete slice `[50, 55, 45]` returns
`mean = 50, median = 50, min = 45, max = 55, count = 3`; and on every
non-empty slice it satisfies `min ≤ median ≤ max`, `min ≤ mean ≤ max` and
`count` equal to the input length. -/
theorem summarize_stats :
    summarize [(50:ℚ), 55, 45] =
      some { mean := 50, median := 50, min := 45, max := 55, count := 3 } ∧
    ∀ (l : List ℚ), l ≠ [] → ∀ s, summarize l = some s →
      s.min ≤ s.median ∧ s.median ≤ s.max ∧ s.min ≤ s.mean ∧ s.mean ≤ s.max ∧
      s.count = l.length := by
  constructor
  · simp [summarize, sMean, sMedian, sMin, sMax, List.insertionSort, List.orderedInsert]
    norm_num
  · intro l hl s hs
    simp only [summarize, if_neg hl] at hs
    injection hs with hs
    subst hs
    exact ⟨(sMedian_bounds hl).1, (sMedian_bounds hl).2,
           (sMean_bounds hl).1, (sMean_bounds hl).2, rfl⟩

/-- Witness for C6: the general bounds instantiated at the non-empty slice `[3]`. -/
theorem summarize_stats_witness :
    ([(3:ℚ)] ≠ []) ∧ summarize [(3:ℚ)] = some summaryW ∧
    (summaryW.min ≤ summaryW.median ∧ summaryW.median ≤ summaryW.max ∧
     summaryW.min ≤ summaryW.mean ∧ summaryW.mean ≤ summaryW.max ∧
     summaryW.count = [(3:ℚ)].length) := by
  have h1 : [(3:ℚ)] ≠ [] := by simp
  have h2 : summarize [(3:ℚ)] = some summaryW := by
    simp [summarize, sMean, sMedian, sMin, sMax, summaryW,
          List.insertionSort, List.orderedInsert]
  exact ⟨h1, h2, summarize_stats.2 [(3:ℚ)] h1 summaryW h2⟩

/-- C7: annualized volatility is scale-invariant — for a series of at least
two positive prices and any `k > 0`, scaling every price by `k` leaves the
annualized standard deviation of daily log returns unchanged. -/
theorem volatility_scale_invariant (l : List ℝ) (k : ℝ) (h2 : 2 ≤ l.length)
    (hpos : ∀ x ∈ l, 0 < x) (hk : 0 < k) :
    volatility (l.map (fun x => k * x)) = volatility l := by
  unfold volatility
  rw [logReturns_scale l k (ne_of_gt hk)]

/-- Witness for C7: scale invariance instantiated at the two-point series `[1, 2]` with `k = 2`. -/
theorem volatility_scale_witness :
    2 ≤ [(1:ℝ), 2].length ∧ (∀ x ∈ [(1:ℝ), 2], 0 < x) ∧ (0:ℝ) < 2 ∧
    volatility ([(1:ℝ), 2].map (fun x => 2 * x)) = volatility [(1:ℝ), 2] := by
  have hp : ∀ x ∈ [(1:ℝ), 2], 0 < x := by
    intro x hx
    simp only [List.mem_cons, List.not_mem_nil, or_false] at hx
    rcases hx with rfl | rfl <;> norm_num
  exact ⟨by simp, hp, by norm_num,
    volatility_scale_invariant [(1:ℝ), 2] 2 (by simp) hp (by norm_num)⟩

/-- C8: statistics and event-impact handling is deterministic over the
immutable loaded series — every handler returns the store unchanged, and in
any run, two positions holding identical requests receive identical
responses. -/
theorem requests_deterministic :
    (∀ (store : SeriesStore) (r : Request), (handle store r).2 = store) ∧
    ∀ (store : SeriesStore) (rs : List Request) (i j : Nat),
      rs.get? i = rs.get? j →
      (runRequests store rs).get? i = (runRequests store rs).get? j := by
  refine ⟨handle_keeps_store, ?_⟩
  intro store rs i j hij
  rw [runRequests_eq_map, List.get?_map, List.get?_map, hij]

/-- Witness for C8: a concrete run in which the repeated statistics request at positions 0 and 2 gets identical responses. -/
theorem requests_deterministic_witness :
    ([Request.stats 0 2, Request.impact 1 30, Request.stats 0 2].get? 0 =
      [Request.stats 0 2, Request.impact 1 30, Request.stats 0 2].get? 2) ∧
    (runRequests ⟨[], []⟩ [Request.stats 0 2, Request.impact 1 30, Request.stats 0 2]).get? 0 =
      (runRequests ⟨[], []⟩ [Request.stats 0 2, Request.impact 1 30, Request.stats 0 2]).get? 2 :=
  ⟨rfl, requests_deterministic.2 ⟨[], []⟩ _ 0 2 rfl⟩

end BrentApp
